import Mathlib

/-!
Verification of the visitor-dispatch expression evaluation engine
(`src/behavioral/visitor.py`).

The Python source defines a class hierarchy of tree nodes
(`Number`, `Add`, `Sub`, `Mul`, `Div` as binary operators, `Negate` as a
unary operator), a `NodeVisitor` base class whose `visit` method resolves a
handler named `visit_<TypeName>` on the strategy object and falls back to
`generic_visit` (which raises `RuntimeError("No visit_<TypeName> method")`)
when the strategy has no such method, and one concrete strategy `Evaluator`
whose handlers evaluate the tree arithmetically over Python numbers.

Shallow embedding choices, each mirroring the source:

* `Node` is the closed set of node shapes.  Python is untyped: the field
  `operand` of a `Negate` node may hold either another node or a raw
  number, so the embedding splits the `Negate` class into two constructors
  by the runtime type of the stored field (`Negate` for a node operand,
  `NegateRaw` for a raw numeric operand).  Both carry the Python class
  name `Negate`, witnessed by `tagOf`.
* Python numbers are embedded as exact rationals `ℚ`; `float(node.value)`
  on an integer literal is the cast `Int → ℚ`.  Division by zero raises
  `ZeroDivisionError` in Python (for ints and floats alike), embedded as
  the error value `PyErr.zeroDivisionError`.
* A strategy object is characterised, for dispatch purposes, by which
  `visit_<TypeName>` methods it defines: `Strategy := Tag → Bool`.  The
  handler bodies are those of the source `Evaluator`, the only concrete
  strategy in the source; `Evaluator` defines every handler and
  `EvaluatorNoNegate` is the same object with the `visit_Negate` method
  absent (the partial strategy posited by the specification tests).
* `visit` is the direct translation of `NodeVisitor.visit` specialised to
  this handler family: method lookup by tag, `generic_visit` on a miss,
  and the `Evaluator` handler bodies otherwise.  `visit_Negate` returns
  `-node.operand` without recursing: on a node operand the Python unary
  minus fails with `TypeError`, on a raw operand it negates it.
* `visitT` additionally records the handler-completion trace (one event
  appended when a handler returns normally), used for the evaluation-order
  and abort-on-first-failure claims.
* `visitTrack` additionally returns the tree as it stands after the call:
  each embedded handler rebuilds its node from the fields it leaves behind
  (the source handlers only read fields, never assign them), used for the
  no-mutation claims.
* `mkNumber`, `mkNegate`, `mkBinary` embed Python object construction:
  calling a constructor with an argument list whose length does not match
  the `__init__` signature fails at construction time (a `TypeError` in
  Python, the `MalformedTree` error of the specification taxonomy,
  embedded as `PyErr.malformedTree`); with the right arity the constructor
  only stores its arguments.
-/

/-- The closed enumeration of node class names appearing in the source. -/
inductive Tag where
  | Number
  | Add
  | Sub
  | Mul
  | Div
  | Negate
deriving DecidableEq, Repr

/-- The Python class name of a tag, as used in dispatch method names. -/
def tagName : Tag → String
  | .Number => "Number"
  | .Add => "Add"
  | .Sub => "Sub"
  | .Mul => "Mul"
  | .Div => "Div"
  | .Negate => "Negate"

/-- Tree nodes of the source node model.  `Negate` and `NegateRaw` are the
two runtime shapes of the single Python class `Negate`, split by whether
the stored `operand` field holds a node or a raw number. -/
inductive Node where
  | Number (value : Int)
  | Add (left right : Node)
  | Sub (left right : Node)
  | Mul (left right : Node)
  | Div (left right : Node)
  | Negate (operand : Node)
  | NegateRaw (operand : Int)
deriving DecidableEq, Repr

/-- The class name of a node: `type(node).__name__` in the source. -/
def tagOf : Node → Tag
  | .Number _ => .Number
  | .Add _ _ => .Add
  | .Sub _ _ => .Sub
  | .Mul _ _ => .Mul
  | .Div _ _ => .Div
  | .Negate _ => .Negate
  | .NegateRaw _ => .Negate

/-- Python exceptions observable from the engine.  `runtimeError` is the
`RuntimeError` raised by `generic_visit`; `typeError` is the `TypeError`
raised by applying unary minus to a node object; `malformedTree` is the
construction-time arity failure (`TypeError` from Python argument binding,
named `MalformedTree` in the specification taxonomy); `zeroDivisionError`
is the `ZeroDivisionError` of Python division by zero. -/
inductive PyErr where
  | runtimeError (msg : String)
  | typeError (msg : String)
  | malformedTree (cls : String)
  | zeroDivisionError
deriving DecidableEq, Repr

/-- A strategy object, characterised by which `visit_<TypeName>` methods
it defines.  The handler bodies are fixed to those of the source
`Evaluator`, the only concrete strategy in the source. -/
abbrev Strategy := Tag → Bool

/-- The source `Evaluator` strategy: it defines a handler for every tag. -/
def Evaluator : Strategy := fun _ => true

/-- The `Evaluator` with the `visit_Negate` method removed: the partial
strategy posited by the specification for the unhandled-variant test. -/
def EvaluatorNoNegate : Strategy := fun t =>
  match t with
  | .Negate => false
  | _ => true

/-- `NodeVisitor.visit` with the `Evaluator` handler bodies: look up the
method named after the node class; if the strategy lacks it, run
`generic_visit`, which raises `RuntimeError("No visit_<TypeName> method")`.
Binary handlers recursively visit both children and combine the results;
`visit_Number` widens the stored value to a float; `visit_Negate` returns
`-node.operand` without recursing, which on a node operand is a Python
`TypeError` and on a raw operand is its negation. -/
def visit (S : Strategy) (node : Node) : Except PyErr ℚ :=
  if S (tagOf node) then
    match node with
    | .Number v => .ok (v : ℚ)
    | .Add l r => (visit S l).bind fun a => (visit S r).bind fun b => .ok (a + b)
    | .Sub l r => (visit S l).bind fun a => (visit S r).bind fun b => .ok (a - b)
    | .Mul l r => (visit S l).bind fun a => (visit S r).bind fun b => .ok (a * b)
    | .Div l r => (visit S l).bind fun a => (visit S r).bind fun b =>
        if b = 0 then .error .zeroDivisionError else .ok (a / b)
    | .Negate o => .error (.typeError ("bad operand type for unary -: " ++ tagName (tagOf o)))
    | .NegateRaw v => .ok (-(v : ℚ))
  else
    .error (.runtimeError ("No visit_" ++ tagName (tagOf node) ++ " method"))

/-- One observable handler completion: a handler that returned normally,
identified by its node class (with the stored value for `Number`). -/
inductive Event where
  | num (v : Int)
  | add
  | sub
  | mul
  | div
  | neg
deriving DecidableEq, Repr

/-- `visit` instrumented with the handler-completion trace: an event is
appended exactly when a handler returns normally, so the trace records the
order in which handler calls complete.  The first component agrees with
`visit` (`visitT_fst`). -/
def visitT (S : Strategy) (node : Node) : Except PyErr ℚ × List Event :=
  if S (tagOf node) then
    match node with
    | .Number v => (.ok (v : ℚ), [.num v])
    | .Add l r =>
      match visitT S l with
      | (.error e, tl) => (.error e, tl)
      | (.ok a, tl) =>
        match visitT S r with
        | (.error e, tr) => (.error e, tl ++ tr)
        | (.ok b, tr) => (.ok (a + b), tl ++ tr ++ [.add])
    | .Sub l r =>
      match visitT S l with
      | (.error e, tl) => (.error e, tl)
      | (.ok a, tl) =>
        match visitT S r with
        | (.error e, tr) => (.error e, tl ++ tr)
        | (.ok b, tr) => (.ok (a - b), tl ++ tr ++ [.sub])
    | .Mul l r =>
      match visitT S l with
      | (.error e, tl) => (.error e, tl)
      | (.ok a, tl) =>
        match visitT S r with
        | (.error e, tr) => (.error e, tl ++ tr)
        | (.ok b, tr) => (.ok (a * b), tl ++ tr ++ [.mul])
    | .Div l r =>
      match visitT S l with
      | (.error e, tl) => (.error e, tl)
      | (.ok a, tl) =>
        match visitT S r with
        | (.error e, tr) => (.error e, tl ++ tr)
        | (.ok b, tr) =>
          if b = 0 then (.error .zeroDivisionError, tl ++ tr)
          else (.ok (a / b), tl ++ tr ++ [.div])
    | .Negate o =>
      (.error (.typeError ("bad operand type for unary -: " ++ tagName (tagOf o))), [])
    | .NegateRaw v => (.ok (-(v : ℚ)), [.neg])
  else
    (.error (.runtimeError ("No visit_" ++ tagName (tagOf node) ++ " method")), [])

/-- `visit` instrumented with the state of the tree after the call: each
handler rebuilds its node from the fields left behind after the handler
body ran.  The source handlers only read node fields and never assign
them, so the embedded handlers rebuild each node from the unmodified
fields.  The first component agrees with `visit` (`visitTrack_fst`). -/
def visitTrack (S : Strategy) (node : Node) : Except PyErr ℚ × Node :=
  if S (tagOf node) then
    match node with
    | .Number v => (.ok (v : ℚ), .Number v)
    | .Add l r =>
      match visitTrack S l with
      | (.error e, lt) => (.error e, .Add lt r)
      | (.ok a, lt) =>
        match visitTrack S r with
        | (.error e, rt) => (.error e, .Add lt rt)
        | (.ok b, rt) => (.ok (a + b), .Add lt rt)
    | .Sub l r =>
      match visitTrack S l with
      | (.error e, lt) => (.error e, .Sub lt r)
      | (.ok a, lt) =>
        match visitTrack S r with
        | (.error e, rt) => (.error e, .Sub lt rt)
        | (.ok b, rt) => (.ok (a - b), .Sub lt rt)
    | .Mul l r =>
      match visitTrack S l with
      | (.error e, lt) => (.error e, .Mul lt r)
      | (.ok a, lt) =>
        match visitTrack S r with
        | (.error e, rt) => (.error e, .Mul lt rt)
        | (.ok b, rt) => (.ok (a * b), .Mul lt rt)
    | .Div l r =>
      match visitTrack S l with
      | (.error e, lt) => (.error e, .Div lt r)
      | (.ok a, lt) =>
        match visitTrack S r with
        | (.error e, rt) => (.error e, .Div lt rt)
        | (.ok b, rt) =>
          if b = 0 then (.error .zeroDivisionError, .Div lt rt)
          else (.ok (a / b), .Div lt rt)
    | .Negate o =>
      (.error (.typeError ("bad operand type for unary -: " ++ tagName (tagOf o))), .Negate o)
    | .NegateRaw v => (.ok (-(v : ℚ)), .NegateRaw v)
  else
    (.error (.runtimeError ("No visit_" ++ tagName (tagOf node) ++ " method")), node)

/-- The binary operator subclasses of the source. -/
inductive BinTag where
  | Add
  | Sub
  | Mul
  | Div
deriving DecidableEq, Repr

/-- The tag of a binary operator class. -/
def BinTag.toTag : BinTag → Tag
  | .Add => .Add
  | .Sub => .Sub
  | .Mul => .Mul
  | .Div => .Div

/-- Build the node of a binary operator class from its two children. -/
def binNode : BinTag → Node → Node → Node
  | .Add, l, r => .Add l r
  | .Sub, l, r => .Sub l r
  | .Mul, l, r => .Mul l r
  | .Div, l, r => .Div l r

/-- The handler-completion event of a binary operator handler. -/
def binEvent : BinTag → Event
  | .Add => .add
  | .Sub => .sub
  | .Mul => .mul
  | .Div => .div

/-- Python construction of a `Number` from a positional argument list:
`Number.__init__(self, value)` binds exactly one argument and stores it;
any other arity fails at construction (`TypeError` in Python, the
`MalformedTree` error of the specification taxonomy). -/
def mkNumber (args : List Int) : Except PyErr Node :=
  match args with
  | [v] => .ok (.Number v)
  | _ => .error (.malformedTree "Number")

/-- Python construction of a `Negate` from a positional argument list:
`UnaryOperator.__init__(self, operand)` binds exactly one argument and
stores it; any other arity fails at construction. -/
def mkNegate (args : List Node) : Except PyErr Node :=
  match args with
  | [o] => .ok (.Negate o)
  | _ => .error (.malformedTree "Negate")

/-- Python construction of a binary operator node from a positional
argument list: `BinaryOperator.__init__(self, left, right)` binds exactly
two arguments and stores them; any other arity fails at construction. -/
def mkBinary (b : BinTag) (args : List Node) : Except PyErr Node :=
  match args with
  | [l, r] => .ok (binNode b l r)
  | _ => .error (.malformedTree (tagName b.toTag))

/-- The end-to-end example tree of the specification and the source:
`Add(Number(1), Div(Mul(Number(2), Sub(Number(3), Number(4))), Number(5)))`. -/
def exampleTree : Node :=
  .Add (.Number 1) (.Div (.Mul (.Number 2) (.Sub (.Number 3) (.Number 4))) (.Number 5))

/-- Modelled from the spec: the standard arithmetic interpretation of a
tree built only from `Number`, `Add`, `Sub`, `Mul` and `Div` nodes as a
real number, with `Number(v)` widened from an integer literal, `Add`,
`Sub`, `Mul` interpreted as the usual operations and `Div` as real
division, which is undefined on a zero divisor.  Trees containing a
`Negate` class node are outside this interpretation. -/
def specArithInterp : Node → Option ℚ
  | .Number v => some (v : ℚ)
  | .Add l r => (specArithInterp l).bind fun a => (specArithInterp r).bind fun b => some (a + b)
  | .Sub l r => (specArithInterp l).bind fun a => (specArithInterp r).bind fun b => some (a - b)
  | .Mul l r => (specArithInterp l).bind fun a => (specArithInterp r).bind fun b => some (a * b)
  | .Div l r => (specArithInterp l).bind fun a => (specArithInterp r).bind fun b =>
      if b = 0 then none else some (a / b)
  | .Negate _ => none
  | .NegateRaw _ => none

/-- Every node of the `Negate` class occurring in the tree stores a raw
numeric operand rather than a node. -/
def negateOperandsRaw : Node → Bool
  | .Number _ => true
  | .Add l r => negateOperandsRaw l && negateOperandsRaw r
  | .Sub l r => negateOperandsRaw l && negateOperandsRaw r
  | .Mul l r => negateOperandsRaw l && negateOperandsRaw r
  | .Div l r => negateOperandsRaw l && negateOperandsRaw r
  | .Negate _ => false
  | .NegateRaw _ => true

/-- Inversion for `Except.bind` returning a success. -/
theorem except_bind_ok {ε α β : Type} (x : Except ε α) (f : α → Except ε β) (b : β) :
    x.bind f = Except.ok b ↔ ∃ a, x = Except.ok a ∧ f a = Except.ok b := by
  cases x <;> simp [Except.bind]

/-- The trace-instrumented visitor computes the same result as `visit`. -/
theorem visitT_fst (S : Strategy) (t : Node) : (visitT S t).1 = visit S t := by
  induction t with
  | Number v => cases hS : S Tag.Number <;> simp [visit, visitT, tagOf, hS]
  | Negate o => cases hS : S Tag.Negate <;> simp [visit, visitT, tagOf, hS]
  | NegateRaw v => cases hS : S Tag.Negate <;> simp [visit, visitT, tagOf, hS]
  | Add l r ihl ihr =>
    rcases hl : visitT S l with ⟨rl, tl⟩
    rcases hr : visitT S r with ⟨rr, tr⟩
    rw [hl] at ihl
    rw [hr] at ihr
    simp at ihl ihr
    cases hS : S Tag.Add <;> cases rl <;> cases rr <;>
      simp [visit, visitT, tagOf, hl, hr, hS, ← ihl, ← ihr, Except.bind]
  | Sub l r ihl ihr =>
    rcases hl : visitT S l with ⟨rl, tl⟩
    rcases hr : visitT S r with ⟨rr, tr⟩
    rw [hl] at ihl
    rw [hr] at ihr
    simp at ihl ihr
    cases hS : S Tag.Sub <;> cases rl <;> cases rr <;>
      simp [visit, visitT, tagOf, hl, hr, hS, ← ihl, ← ihr, Except.bind]
  | Mul l r ihl ihr =>
    rcases hl : visitT S l with ⟨rl, tl⟩
    rcases hr : visitT S r with ⟨rr, tr⟩
    rw [hl] at ihl
    rw [hr] at ihr
    simp at ihl ihr
    cases hS : S Tag.Mul <;> cases rl <;> cases rr <;>
      simp [visit, visitT, tagOf, hl, hr, hS, ← ihl, ← ihr, Except.bind]
  | Div l r ihl ihr =>
    rcases hl : visitT S l with ⟨rl, tl⟩
    rcases hr : visitT S r with ⟨rr, tr⟩
    rw [hl] at ihl
    rw [hr] at ihr
    simp at ihl ihr
    cases hS : S Tag.Div <;> cases rl <;> cases rr <;>
      simp [visit, visitT, tagOf, hl, hr, hS, ← ihl, ← ihr, Except.bind] <;>
      split <;> rfl

/-- The tree-state-instrumented visitor computes the same result as `visit`. -/
theorem visitTrack_fst (S : Strategy) (t : Node) : (visitTrack S t).1 = visit S t := by
  induction t with
  | Number v => cases hS : S Tag.Number <;> simp [visit, visitTrack, tagOf, hS]
  | Negate o => cases hS : S Tag.Negate <;> simp [visit, visitTrack, tagOf, hS]
  | NegateRaw v => cases hS : S Tag.Negate <;> simp [visit, visitTrack, tagOf, hS]
  | Add l r ihl ihr =>
    rcases hl : visitTrack S l with ⟨rl, lt⟩
    rcases hr : visitTrack S r with ⟨rr, rt⟩
    rw [hl] at ihl
    rw [hr] at ihr
    simp at ihl ihr
    cases hS : S Tag.Add <;> cases rl <;> cases rr <;>
      simp [visit, visitTrack, tagOf, hl, hr, hS, ← ihl, ← ihr, Except.bind]
  | Sub l r ihl ihr =>
    rcases hl : visitTrack S l with ⟨rl, lt⟩
    rcases hr : visitTrack S r with ⟨rr, rt⟩
    rw [hl] at ihl
    rw [hr] at ihr
    simp at ihl ihr
    cases hS : S Tag.Sub <;> cases rl <;> cases rr <;>
      simp [visit, visitTrack, tagOf, hl, hr, hS, ← ihl, ← ihr, Except.bind]
  | Mul l r ihl ihr =>
    rcases hl : visitTrack S l with ⟨rl, lt⟩
    rcases hr : visitTrack S r with ⟨rr, rt⟩
    rw [hl] at ihl
    rw [hr] at ihr
    simp at ihl ihr
    cases hS : S Tag.Mul <;> cases rl <;> cases rr <;>
      simp [visit, visitTrack, tagOf, hl, hr, hS, ← ihl, ← ihr, Except.bind]
  | Div l r ihl ihr =>
    rcases hl : visitTrack S l with ⟨rl, lt⟩
    rcases hr : visitTrack S r with ⟨rr, rt⟩
    rw [hl] at ihl
    rw [hr] at ihr
    simp at ihl ihr
    cases hS : S Tag.Div <;> cases rl <;> cases rr <;>
      simp [visit, visitTrack, tagOf, hl, hr, hS, ← ihl, ← ihr, Except.bind] <;>
      split <;> rfl

/-- Dispatch leaves the tree exactly as it was: the handlers of the source
only read node fields, so the tree left behind by a call is the input tree. -/
theorem visitTrack_snd (S : Strategy) (t : Node) : (visitTrack S t).2 = t := by
  induction t with
  | Number v => cases hS : S Tag.Number <;> simp [visitTrack, tagOf, hS]
  | Negate o => cases hS : S Tag.Negate <;> simp [visitTrack, tagOf, hS]
  | NegateRaw v => cases hS : S Tag.Negate <;> simp [visitTrack, tagOf, hS]
  | Add l r ihl ihr =>
    rcases hl : visitTrack S l with ⟨rl, lt⟩
    rcases hr : visitTrack S r with ⟨rr, rt⟩
    rw [hl] at ihl
    rw [hr] at ihr
    simp at ihl ihr
    cases hS : S Tag.Add <;> cases rl <;> cases rr <;>
      simp [visitTrack, tagOf, hl, hr, hS, ihl, ihr]
  | Sub l r ihl ihr =>
    rcases hl : visitTrack S l with ⟨rl, lt⟩
    rcases hr : visitTrack S r with ⟨rr, rt⟩
    rw [hl] at ihl
    rw [hr] at ihr
    simp at ihl ihr
    cases hS : S Tag.Sub <;> cases rl <;> cases rr <;>
      simp [visitTrack, tagOf, hl, hr, hS, ihl, ihr]
  | Mul l r ihl ihr =>
    rcases hl : visitTrack S l with ⟨rl, lt⟩
    rcases hr : visitTrack S r with ⟨rr, rt⟩
    rw [hl] at ihl
    rw [hr] at ihr
    simp at ihl ihr
    cases hS : S Tag.Mul <;> cases rl <;> cases rr <;>
      simp [visitTrack, tagOf, hl, hr, hS, ihl, ihr]
  | Div l r ihl ihr =>
    rcases hl : visitTrack S l with ⟨rl, lt⟩
    rcases hr : visitTrack S r with ⟨rr, rt⟩
    rw [hl] at ihl
    rw [hr] at ihr
    simp at ihl ihr
    cases hS : S Tag.Div <;> cases rl <;> cases rr <;>
      simp [visitTrack, tagOf, hl, hr, hS, ihl, ihr] <;>
      split <;> rfl

/-- Claim C1: for every finite tree built only from Number, Add, Sub, Mul
and Div nodes, dispatching it with the Evaluation Strategy returns the
standard arithmetic interpretation of the tree as a real number (the
partial interpretation `specArithInterp`, with Number values widened from
integer literals); in particular, evaluating
Add(Number(1), Div(Mul(Number(2), Sub(Number(3), Number(4))), Number(5)))
yields 0.6. -/
theorem C1_evaluation_standard_arithmetic :
    (∀ (t : Node) (q : ℚ), specArithInterp t = some q → visit Evaluator t = Except.ok q) ∧
    visit Evaluator exampleTree = Except.ok (0.6 : ℚ) := by
  constructor
  · intro t
    induction t with
    | Number v =>
      intro q h
      simp [specArithInterp] at h
      simp [visit, Evaluator, tagOf, ← h]
    | Negate o iho => intro q h; simp [specArithInterp] at h
    | NegateRaw v => intro q h; simp [specArithInterp] at h
    | Add l r ihl ihr =>
      intro q h
      simp [specArithInterp, Option.bind_eq_some] at h
      obtain ⟨a, ha, b, hb, hq⟩ := h
      simp [visit, Evaluator, tagOf, ihl a ha, ihr b hb, Except.bind, hq]
    | Sub l r ihl ihr =>
      intro q h
      simp [specArithInterp, Option.bind_eq_some] at h
      obtain ⟨a, ha, b, hb, hq⟩ := h
      simp [visit, Evaluator, tagOf, ihl a ha, ihr b hb, Except.bind, hq]
    | Mul l r ihl ihr =>
      intro q h
      simp [specArithInterp, Option.bind_eq_some] at h
      obtain ⟨a, ha, b, hb, hq⟩ := h
      simp [visit, Evaluator, tagOf, ihl a ha, ihr b hb, Except.bind, hq]
    | Div l r ihl ihr =>
      intro q h
      simp [specArithInterp, Option.bind_eq_some] at h
      obtain ⟨a, ha, b, hb, hq⟩ := h
      by_cases hz : b = 0
      · simp [hz] at hq
      · simp [hz] at hq
        simp [visit, Evaluator, tagOf, ihl a ha, ihr b hb, Except.bind, hz, hq]
  · norm_num [visit, Evaluator, exampleTree, tagOf, Except.bind]

/-- Witness for C1: the example tree has a defined standard interpretation,
namely 0.6, and the theorem applied there gives the evaluation result. -/
theorem C1_witness :
    specArithInterp exampleTree = some (0.6 : ℚ) ∧
    visit Evaluator exampleTree = Except.ok (0.6 : ℚ) :=
  ⟨by norm_num [specArithInterp, exampleTree],
   C1_evaluation_standard_arithmetic.1 exampleTree (0.6 : ℚ)
     (by norm_num [specArithInterp, exampleTree])⟩

/-- Claim C2: the Evaluation Strategy handler for the Negate class returns
the negation of the stored operand field itself, computed as `-operand`,
and never dispatches into the operand as a subtree: on a raw numeric
operand the result is its negation, the handler-completion trace of a
Negate visit contains no event from inside the operand (empty on a node
operand, where the handler itself fails, and exactly the single Negate
completion on a raw operand), and concretely Negate(Number(5)) does not
produce the recursive evaluation result 5.0 but a type error. -/
theorem C2_negate_handler_nonrecursive :
    (∀ v : Int, visit Evaluator (Node.NegateRaw v) = Except.ok (-(v : ℚ))) ∧
    (∀ n : Node, (visitT Evaluator (Node.Negate n)).2 = []) ∧
    (∀ v : Int, (visitT Evaluator (Node.NegateRaw v)).2 = [Event.neg]) ∧
    visit Evaluator (Node.Negate (Node.Number 5)) =
      Except.error (PyErr.typeError ("bad operand type for unary -: " ++ tagName Tag.Number)) := by
  refine ⟨?_, ?_, ?_, ?_⟩ <;> simp [visit, visitT, Evaluator, tagOf]

/-- Claim C3: whenever the operand field of a Negate class node holds a
node (the data-model invariant shape, including Negate(Number(v))), the
Evaluation Strategy raises a type error on that node, because unary minus
is applied to the node object stored there; and a dispatch can return a
number only if every Negate class node in the tree stores a raw numeric
value instead of a node. -/
theorem C3_negate_node_operand_type_error :
    (∀ n : Node, visit Evaluator (Node.Negate n) =
        Except.error (PyErr.typeError ("bad operand type for unary -: " ++ tagName (tagOf n)))) ∧
    (∀ (t : Node) (q : ℚ), visit Evaluator t = Except.ok q → negateOperandsRaw t = true) := by
  constructor
  · intro n
    simp [visit, Evaluator, tagOf]
  · intro t
    induction t with
    | Number v => intro q h; simp [negateOperandsRaw]
    | Negate o iho => intro q h; simp [visit, Evaluator, tagOf] at h
    | NegateRaw v => intro q h; simp [negateOperandsRaw]
    | Add l r ihl ihr =>
      intro q h
      simp [visit, Evaluator, tagOf, except_bind_ok] at h
      obtain ⟨a, ha, b, hb, hq⟩ := h
      simp [negateOperandsRaw, ihl a ha, ihr b hb]
    | Sub l r ihl ihr =>
      intro q h
      simp [visit, Evaluator, tagOf, except_bind_ok] at h
      obtain ⟨a, ha, b, hb, hq⟩ := h
      simp [negateOperandsRaw, ihl a ha, ihr b hb]
    | Mul l r ihl ihr =>
      intro q h
      simp [visit, Evaluator, tagOf, except_bind_ok] at h
      obtain ⟨a, ha, b, hb, hq⟩ := h
      simp [negateOperandsRaw, ihl a ha, ihr b hb]
    | Div l r ihl ihr =>
      intro q h
      simp [visit, Evaluator, tagOf, except_bind_ok] at h
      obtain ⟨a, ha, b, hb, hq⟩ := h
      simp [negateOperandsRaw, ihl a ha, ihr b hb]

/-- Witness for C3: a successful dispatch at a concrete tree, with the
conclusion that all Negate operands in it are raw. -/
theorem C3_witness :
    visit Evaluator (Node.Number 5) = Except.ok 5 ∧
    negateOperandsRaw (Node.Number 5) = true := by
  have h : visit Evaluator (Node.Number 5) = Except.ok 5 := by
    norm_num [visit, Evaluator, tagOf]
  exact ⟨h, C3_negate_node_operand_type_error.2 (Node.Number 5) 5 h⟩

/-- Claim C4: node constructors validate arity at construction time:
Negate requires exactly one child, binary operators exactly two, Number
exactly one scalar value; a wrong number of children fails there with the
MalformedTree error; no traversal ever produces that error; and with the
right arity a constructor only stores its arguments and performs no other
computation. -/
theorem C4_constructor_arity_validation :
    (∀ o : Node, mkNegate [o] = Except.ok (Node.Negate o)) ∧
    (∀ args : List Node, args.length ≠ 1 →
        mkNegate args = Except.error (PyErr.malformedTree "Negate")) ∧
    (∀ (b : BinTag) (l r : Node), mkBinary b [l, r] = Except.ok (binNode b l r)) ∧
    (∀ (b : BinTag) (args : List Node), args.length ≠ 2 →
        mkBinary b args = Except.error (PyErr.malformedTree (tagName b.toTag))) ∧
    (∀ v : Int, mkNumber [v] = Except.ok (Node.Number v)) ∧
    (∀ args : List Int, args.length ≠ 1 →
        mkNumber args = Except.error (PyErr.malformedTree "Number")) ∧
    (∀ (S : Strategy) (t : Node) (c : String),
        visit S t ≠ Except.error (PyErr.malformedTree c)) := by
  refine ⟨fun o => rfl, ?_, fun b l r => rfl, ?_, fun v => rfl, ?_, ?_⟩
  · intro args h
    rcases args with _ | ⟨a, _ | ⟨b, rest⟩⟩ <;> simp [mkNegate] <;> simp at h
  · intro b args h
    rcases args with _ | ⟨a, _ | ⟨c, _ | ⟨d, rest⟩⟩⟩ <;> simp [mkBinary] <;> simp at h
  · intro args h
    rcases args with _ | ⟨a, _ | ⟨b, rest⟩⟩ <;> simp [mkNumber] <;> simp at h
  · intro S t c
    induction t with
    | Number v => cases hS : S Tag.Number <;> simp [visit, tagOf, hS]
    | Negate o iho => cases hS : S Tag.Negate <;> simp [visit, tagOf, hS]
    | NegateRaw v => cases hS : S Tag.Negate <;> simp [visit, tagOf, hS]
    | Add l r ihl ihr =>
      cases hS : S Tag.Add <;> simp [visit, tagOf, hS]
      cases hl : visit S l with
      | error e => rw [hl] at ihl; simpa [Except.bind] using ihl
      | ok a =>
        cases hr : visit S r with
        | error e => rw [hr] at ihr; simpa [Except.bind] using ihr
        | ok b => simp [Except.bind]
    | Sub l r ihl ihr =>
      cases hS : S Tag.Sub <;> simp [visit, tagOf, hS]
      cases hl : visit S l with
      | error e => rw [hl] at ihl; simpa [Except.bind] using ihl
      | ok a =>
        cases hr : visit S r with
        | error e => rw [hr] at ihr; simpa [Except.bind] using ihr
        | ok b => simp [Except.bind]
    | Mul l r ihl ihr =>
      cases hS : S Tag.Mul <;> simp [visit, tagOf, hS]
      cases hl : visit S l with
      | error e => rw [hl] at ihl; simpa [Except.bind] using ihl
      | ok a =>
        cases hr : visit S r with
        | error e => rw [hr] at ihr; simpa [Except.bind] using ihr
        | ok b => simp [Except.bind]
    | Div l r ihl ihr =>
      cases hS : S Tag.Div <;> simp [visit, tagOf, hS]
      cases hl : visit S l with
      | error e => rw [hl] at ihl; simpa [Except.bind] using ihl
      | ok a =>
        cases hr : visit S r with
        | error e => rw [hr] at ihr; simpa [Except.bind] using ihr
        | ok b => simp [Except.bind]; split <;> simp

/-- Witness for C4: concrete wrong-arity constructions fail with the
MalformedTree error. -/
theorem C4_witness :
    mkNegate [] = Except.error (PyErr.malformedTree "Negate") ∧
    mkBinary BinTag.Add [Node.Number 1] =
      Except.error (PyErr.malformedTree (tagName BinTag.Add.toTag)) ∧
    mkNumber [] = Except.error (PyErr.malformedTree "Number") :=
  ⟨C4_constructor_arity_validation.2.1 [] (by simp),
   C4_constructor_arity_validation.2.2.2.1 BinTag.Add [Node.Number 1] (by simp),
   C4_constructor_arity_validation.2.2.2.2.2.1 [] (by simp)⟩

/-- Claim C5: for every node whose class has no handler in the strategy,
dispatch falls back to the default handler, which fails with an error
naming the missing class; in particular a strategy missing the Negate
handler, on a tree containing a Negate node, raises that error and records
no handler completion for the sibling of the failing node. -/
theorem C5_unhandled_variant_default :
    (∀ (S : Strategy) (n : Node), S (tagOf n) = false →
        visit S n = Except.error
          (PyErr.runtimeError ("No visit_" ++ tagName (tagOf n) ++ " method"))) ∧
    visit EvaluatorNoNegate (Node.Add (Node.Negate (Node.Number 1)) (Node.Number 2)) =
      Except.error (PyErr.runtimeError ("No visit_" ++ tagName Tag.Negate ++ " method")) ∧
    (visitT EvaluatorNoNegate (Node.Add (Node.Negate (Node.Number 1)) (Node.Number 2))).2 = [] := by
  refine ⟨?_, ?_, ?_⟩
  · intro S n h
    cases n <;> simp [tagOf] at h ⊢ <;> simp [visit, tagOf, h]
  · simp [visit, EvaluatorNoNegate, tagOf, Except.bind]
  · simp [visitT, EvaluatorNoNegate, tagOf]

/-- Witness for C5: the strategy without a Negate handler visibly lacks the
method at a concrete Negate node, and dispatching there gives the default
handler failure naming the class. -/
theorem C5_witness :
    visit EvaluatorNoNegate (Node.Negate (Node.Number 1)) =
      Except.error (PyErr.runtimeError
        ("No visit_" ++ tagName (tagOf (Node.Negate (Node.Number 1))) ++ " method")) :=
  C5_unhandled_variant_default.1 EvaluatorNoNegate (Node.Negate (Node.Number 1)) rfl

/-- Claim C6: the Div handler has no division-by-zero guard: dividing by a
value that evaluated to zero surfaces the host numeric failure (the
ZeroDivisionError of Python division, the ArithmeticFailure of the
specification taxonomy) unchanged, and in particular
Div(Number(1), Number(0)) does so. -/
theorem C6_div_by_zero_propagates :
    visit Evaluator (Node.Div (Node.Number 1) (Node.Number 0)) =
      Except.error PyErr.zeroDivisionError ∧
    (∀ (l r : Node) (a : ℚ), visit Evaluator l = Except.ok a →
        visit Evaluator r = Except.ok 0 →
        visit Evaluator (Node.Div l r) = Except.error PyErr.zeroDivisionError) := by
  constructor
  · norm_num [visit, Evaluator, tagOf, Except.bind]
  · intro l r a hl hr
    simp [visit, Evaluator, tagOf, hl, hr, Except.bind]

/-- Witness for C6: the general unguarded-division statement applied at
Div(Number(1), Number(0)). -/
theorem C6_witness :
    visit Evaluator (Node.Div (Node.Number 1) (Node.Number 0)) =
      Except.error PyErr.zeroDivisionError :=
  C6_div_by_zero_propagates.2 (Node.Number 1) (Node.Number 0) 1
    (by norm_num [visit, Evaluator, tagOf]) (by norm_num [visit, Evaluator, tagOf])

/-- Claim C7: any error raised by a handler propagates unchanged through a
binary node to the dispatch caller: if the left child fails with an error
then the node fails with the same error and no handler completion past the
left subtree is recorded (the right sibling and the node handler never
run); if the left child succeeds and the right child fails, the node fails
with the same error; no error is caught or translated and no partial
result is produced. -/
theorem C7_error_propagation (S : Strategy) (b : BinTag) (l r : Node) (e : PyErr)
    (hS : S b.toTag = true) :
    (visit S l = Except.error e →
        visit S (binNode b l r) = Except.error e ∧
        (visitT S (binNode b l r)).2 = (visitT S l).2) ∧
    (∀ a : ℚ, visit S l = Except.ok a → visit S r = Except.error e →
        visit S (binNode b l r) = Except.error e) := by
  constructor
  · intro hl
    have hfst := visitT_fst S l
    rcases hl2 : visitT S l with ⟨rl, tl⟩
    rw [hl2] at hfst
    simp at hfst
    rw [hl] at hfst
    subst hfst
    cases b <;>
      constructor <;>
        simp [binNode, BinTag.toTag, visit, visitT, tagOf, hS, hl, hl2, Except.bind] at hS ⊢
  · intro a hl hr
    cases b <;>
      simp [binNode, BinTag.toTag, visit, tagOf, hl, hr, Except.bind] at hS ⊢ <;>
        simp [hS]

/-- Witness for C7: a failing left child of an Add node propagates its
type error unchanged, and the trace stops at the left subtree. -/
theorem C7_witness :
    visit Evaluator (binNode BinTag.Add (Node.Negate (Node.Number 1)) (Node.Number 2)) =
      Except.error (PyErr.typeError ("bad operand type for unary -: " ++ tagName Tag.Number)) ∧
    (visitT Evaluator (binNode BinTag.Add (Node.Negate (Node.Number 1)) (Node.Number 2))).2 =
      (visitT Evaluator (Node.Negate (Node.Number 1))).2 :=
  (C7_error_propagation Evaluator BinTag.Add (Node.Negate (Node.Number 1)) (Node.Number 2)
      (PyErr.typeError ("bad operand type for unary -: " ++ tagName Tag.Number)) rfl).1
    (by simp [visit, Evaluator, tagOf])

/-- Claim C8: traversal is deterministic, depth-first and left-to-right:
for every binary node whose dispatch succeeds, the handler-completion
trace is the whole left-subtree trace, then the whole right-subtree trace,
then the node handler completion; and the recorded order for
Add(Number(1), Mul(Number(2), Number(3))) is
[Number(1), Number(2), Number(3), Mul, Add]. -/
theorem C8_left_to_right_order :
    (∀ (S : Strategy) (b : BinTag) (l r : Node) (q : ℚ), S b.toTag = true →
        visit S (binNode b l r) = Except.ok q →
        (visitT S (binNode b l r)).2 = (visitT S l).2 ++ (visitT S r).2 ++ [binEvent b]) ∧
    (visitT Evaluator (Node.Add (Node.Number 1) (Node.Mul (Node.Number 2) (Node.Number 3)))).2 =
      [Event.num 1, Event.num 2, Event.num 3, Event.mul, Event.add] := by
  constructor
  · intro S b l r q hS hv
    have hfl := visitT_fst S l
    have hfr := visitT_fst S r
    rcases hl2 : visitT S l with ⟨rl, tl⟩
    rcases hr2 : visitT S r with ⟨rr, tr⟩
    rw [hl2] at hfl
    rw [hr2] at hfr
    simp at hfl hfr
    cases b <;> simp [BinTag.toTag] at hS <;>
      simp [binNode, visit, tagOf, hS, except_bind_ok, ← hfl, ← hfr] at hv
    case Add =>
      obtain ⟨a, ha, c, hc, hq⟩ := hv
      subst ha
      subst hc
      simp [binNode, visitT, tagOf, hS, hl2, hr2, binEvent]
    case Sub =>
      obtain ⟨a, ha, c, hc, hq⟩ := hv
      subst ha
      subst hc
      simp [binNode, visitT, tagOf, hS, hl2, hr2, binEvent]
    case Mul =>
      obtain ⟨a, ha, c, hc, hq⟩ := hv
      subst ha
      subst hc
      simp [binNode, visitT, tagOf, hS, hl2, hr2, binEvent]
    case Div =>
      obtain ⟨a, ha, c, hc, hq⟩ := hv
      by_cases hz : c = 0
      · simp [hz] at hq
      · subst ha
        subst hc
        simp [binNode, visitT, tagOf, hS, hl2, hr2, binEvent, hz]
  · norm_num [visitT, Evaluator, tagOf]

/-- Witness for C8: the trace decomposition applied at a concrete
successfully evaluated Add node. -/
theorem C8_witness :
    (visitT Evaluator (binNode BinTag.Add (Node.Number 0) (Node.Number 0))).2 =
      (visitT Evaluator (Node.Number 0)).2 ++ (visitT Evaluator (Node.Number 0)).2 ++
        [binEvent BinTag.Add] :=
  C8_left_to_right_order.1 Evaluator BinTag.Add (Node.Number 0) (Node.Number 0) 0 rfl
    (by norm_num [binNode, visit, Evaluator, tagOf, Except.bind])

/-- Claim C9: dispatch is deterministic: dispatching the tree left behind
by one dispatch call with the same strategy again produces the identical
outcome, so any number of repeated calls on a fixed tree and strategy
yield the identical result. -/
theorem C9_determinism (S : Strategy) (t : Node) :
    visitTrack S ((visitTrack S t).2) = visitTrack S t := by
  rw [visitTrack_snd]

/-- Claim C10: dispatch never mutates the tree: the tree after any
dispatch call is structurally equal to the tree before it, so the same
tree instance passed to two different strategies in sequence gives each
traversal the same input and the same result it would get alone. -/
theorem C10_no_tree_mutation (S1 S2 : Strategy) (t : Node) :
    (visitTrack S1 t).2 = t ∧
    (visitTrack S2 ((visitTrack S1 t).2)).1 = (visitTrack S2 t).1 := by
  refine ⟨visitTrack_snd S1 t, ?_⟩
  rw [visitTrack_snd]
